import Mathlib

/-!
Shallow embedding of the Online-talk real-time relay core.

Server side (src/server.ts): the socket.io connection handlers keep two
in-memory maps, onlineUsers (roomId to Set of userId) and userSockets
(socketId to userId), plus the socket.io room membership that socket.join
and socket.leave maintain for each connection.  The durable roster
(roomMember rows, mutated by src/app/api/rooms/[roomId]/members/route.ts)
is modelled as a further map from roomId to the list of member userIds.

JavaScript Maps and Sets preserve insertion order; both are modelled as
association lists and duplicate-free lists with insert-at-end semantics.

Client side (src/app/components/chat/video-chat.tsx): the peers map of
RTCPeerConnections and the media-acquisition fallback are modelled with
explicit records; asynchronous results (created answers, persisted
messages) are passed in as parameters standing for the awaited values.
-/

namespace OnlineTalk

/-- Lookup in an association list, first binding wins (JS Map.get). -/
def lookup (k : String) : List (String × α) → Option α
  | [] => none
  | (k₁, v) :: rest => if k₁ = k then some v else lookup k rest

/-- JS Map.set: overwrite in place when the key exists, append otherwise. -/
def insertA (k : String) (v : α) : List (String × α) → List (String × α)
  | [] => [(k, v)]
  | (k₁, v₁) :: rest => if k₁ = k then (k, v) :: rest else (k₁, v₁) :: insertA k v rest

/-- JS Map.delete. -/
def eraseA (k : String) (l : List (String × α)) : List (String × α) :=
  l.filter (fun p => p.1 ≠ k)

/-- JS Set.add: appends at the end when absent, no-op when present. -/
def setAdd (x : String) (s : List String) : List String :=
  if x ∈ s then s else s ++ [x]

/-- JS Set.delete. -/
def setDel (x : String) (s : List String) : List String :=
  s.filter (fun y => y ≠ x)

/-- A chat message record as returned by prisma.message.create in the
send-message handler (storage-assigned id and timestamp, the submitted
content, type, optional image url, room, author, and the included user
name/email). -/
structure MessageRecord where
  id : String
  content : String
  msgType : String
  imageUrl : Option String
  roomId : String
  userId : String
  createdAt : Nat
  userName : Option String
  userEmail : Option String
deriving DecidableEq, Repr

/-- Payload of the send-message event as destructured by the handler. -/
structure MessageData where
  roomId : String
  message : String
  userId : String
  msgType : String
  imageUrl : Option String
deriving DecidableEq, Repr

/-- Destination of a socket.io emission: io.to(room), socket.to(room)
(room minus the sender), socket.emit (one connection), or io.emit. -/
inductive Scope where
  | toRoom (roomId : String)
  | toRoomExcept (roomId : String) (socketId : String)
  | toSocket (socketId : String)
  | broadcast
deriving DecidableEq, Repr

/-- The event name and payload of an emission, one constructor per event
the server emits, carrying exactly the fields the source puts in the
payload. -/
inductive EventMsg where
  | userOnline (userId : String)
  | roomMembersUpdate (members : List (String × Bool))
  | userOffline (userId : String)
  | newMessage (record : MessageRecord)
  | errorMsg (message : String)
  | userJoinedVideo (userId : String)
  | userLeftVideo (userId : String)
  | videoOffer (userId : String) (offer : String)
  | videoAnswer (userId : String) (answer : String)
  | iceCandidate (userId : String) (candidate : String)
deriving DecidableEq, Repr

/-- One emission performed by a handler. -/
structure Emit where
  scope : Scope
  msg : EventMsg
deriving DecidableEq, Repr

/-- The in-memory server state plus the storage collaborator's durable
roster. -/
structure SysState where
  userSockets : List (String × String)
  onlineUsers : List (String × List String)
  socketRooms : List (String × List String)
  roster : List (String × List String)
deriving DecidableEq, Repr

/-- The empty initial state: no connections, no presence, empty roster. -/
def initState : SysState := ⟨[], [], [], []⟩

/-- The socket.io rooms a connection is currently joined to. -/
def socketRoomsOf (st : SysState) (s : String) : List String :=
  (lookup s st.socketRooms).getD []

/-- The live presence set of a room (empty when the room has no entry). -/
def presenceOf (st : SysState) (r : String) : List String :=
  (lookup r st.onlineUsers).getD []

/-- The durable roster of a room. -/
def rosterOf (st : SysState) (r : String) : List String :=
  (lookup r st.roster).getD []

/-- The identity bound to a connection.  The handlers guard with a JS
truthiness test (if (!userId) return), so the empty string behaves like
no binding. -/
def getIdentity (st : SysState) (s : String) : Option String :=
  match lookup s st.userSockets with
  | some u => if u = "" then none else some u
  | none => none

/-- Which connection receives an emission, judged against the state at
emission time. -/
def receives (st : SysState) (e : Emit) (sock : String) : Bool :=
  match e.scope with
  | .toRoom r => decide (r ∈ socketRoomsOf st sock)
  | .toRoomExcept r x => decide (r ∈ socketRoomsOf st sock) && decide (sock ≠ x)
  | .toSocket x => decide (sock = x)
  | .broadcast => true

/-- The identify handler: userSockets.set(socket.id, userId) then a global
user_online broadcast. -/
def identify (st : SysState) (s userId : String) : SysState × List Emit :=
  ({ st with userSockets := insertA s userId st.userSockets },
   [⟨.broadcast, .userOnline userId⟩])

/-- The join-room handler.  Unidentified connections return silently.
Otherwise: socket.join(roomId), add the user to the room's presence set
(creating it when absent), fetch the durable roster, and broadcast the
membership snapshot (each roster member paired with its online flag) to
the room.  The catch around the roster fetch only logs, so the success
path is modelled. -/
def joinRoom (st : SysState) (s r : String) : SysState × List Emit :=
  match getIdentity st s with
  | none => (st, [])
  | some u =>
    let st₁ := { st with socketRooms := insertA s (setAdd r (socketRoomsOf st s)) st.socketRooms }
    let pres := presenceOf st₁ r
    let st₂ := { st₁ with onlineUsers := insertA r (setAdd u pres) st₁.onlineUsers }
    let snapshot := (rosterOf st₂ r).map (fun m => (m, decide (m ∈ presenceOf st₂ r)))
    (st₂, [⟨.toRoom r, .roomMembersUpdate snapshot⟩])

/-- The leave-room handler.  Unidentified connections return silently.
Otherwise: socket.leave(roomId), delete the user from the room's presence
set, discard the room's entry when it became empty, and emit user_offline
to the room. -/
def leaveRoom (st : SysState) (s r : String) : SysState × List Emit :=
  match getIdentity st s with
  | none => (st, [])
  | some u =>
    let st₁ := { st with socketRooms := insertA s (setDel r (socketRoomsOf st s)) st.socketRooms }
    let newOnline :=
      match lookup r st₁.onlineUsers with
      | none => st₁.onlineUsers
      | some pres =>
        if setDel u pres = [] then eraseA r st₁.onlineUsers
        else insertA r (setDel u pres) st₁.onlineUsers
    ({ st₁ with onlineUsers := newOnline }, [⟨.toRoom r, .userOffline u⟩])

/-- The send-message handler.  It reads roomId and userId from the payload
without consulting userSockets.  persistResult stands for the awaited
prisma.message.create: on success the created record is broadcast to the
room as new-message; on failure an error event goes to the submitting
connection only. -/
def sendMessage (st : SysState) (s : String) (data : MessageData)
    (persistResult : Option MessageRecord) : SysState × List Emit :=
  match persistResult with
  | some newMsg => (st, [⟨.toRoom data.roomId, .newMessage newMsg⟩])
  | none => (st, [⟨.toSocket s, .errorMsg "Failed to save message"⟩])

/-- The per-room part of the disconnect handler: for every room whose
presence set contains the user, delete the user, discard the room when
it became empty, and emit user_offline to that room, in map iteration
order. -/
def disconnectRooms (u : String) : List (String × List String) →
    List (String × List String) × List Emit
  | [] => ([], [])
  | (r, us) :: rest =>
    let res := disconnectRooms u rest
    if u ∈ us then
      (if setDel u us = [] then res.1 else (r, setDel u us) :: res.1,
       ⟨.toRoom r, .userOffline u⟩ :: res.2)
    else ((r, us) :: res.1, res.2)

/-- The disconnect handler.  When the connection was identified: remove
the user from every room's presence set with one user_offline per
affected room, drop the userSockets binding, then a global user_offline
broadcast.  socket.io itself removes the closed connection from its
rooms, modelled by erasing its socketRooms entry in both branches.
The truthiness guard (if (userId)) makes an empty-string binding behave
like none. -/
def disconnect (st : SysState) (s : String) : SysState × List Emit :=
  match getIdentity st s with
  | none =>
    ({ st with userSockets := eraseA s st.userSockets,
               socketRooms := eraseA s st.socketRooms }, [])
  | some u =>
    let res := disconnectRooms u st.onlineUsers
    ({ st with onlineUsers := res.1,
               userSockets := eraseA s st.userSockets,
               socketRooms := eraseA s st.socketRooms },
     res.2 ++ [⟨.broadcast, .userOffline u⟩])

/-- The POST handler of the members route: after the existing-member
check, roomMember.create adds the user to the room's durable roster. -/
def memberCreate (st : SysState) (r u : String) : SysState :=
  { st with roster := insertA r (setAdd u (rosterOf st r)) st.roster }

/-- The name of the per-room video call channel. -/
def videoChannel (r : String) : String := "video-" ++ r

/-- Payload of join-video-chat as the client sends it (the server only
destructures roomId and userId, dropping isAudioOnly). -/
structure JoinVideoPayload where
  roomId : String
  userId : String
  isAudioOnly : Bool
deriving DecidableEq, Repr

/-- The join-video-chat handler: socket.join on the call channel, then
user-joined-video with only the userId to the other channel members. -/
def joinVideoChat (st : SysState) (s : String) (p : JoinVideoPayload) :
    SysState × List Emit :=
  let st₁ := { st with
    socketRooms := insertA s (setAdd (videoChannel p.roomId) (socketRoomsOf st s)) st.socketRooms }
  (st₁, [⟨.toRoomExcept (videoChannel p.roomId) s, .userJoinedVideo p.userId⟩])

/-- The leave-video-chat handler. -/
def leaveVideoChat (st : SysState) (s roomId userId : String) :
    SysState × List Emit :=
  let st₁ := { st with
    socketRooms := insertA s (setDel (videoChannel roomId) (socketRoomsOf st s)) st.socketRooms }
  (st₁, [⟨.toRoom (videoChannel roomId), .userLeftVideo userId⟩])

/-- The video-offer handler: io.to(video channel) with userId and offer;
the targetUserId destructured from the payload is not forwarded. -/
def videoOffer (st : SysState) (s roomId userId targetUserId offer : String) :
    SysState × List Emit :=
  (st, [⟨.toRoom (videoChannel roomId), .videoOffer userId offer⟩])

/-- The video-answer handler, same shape as video-offer. -/
def videoAnswer (st : SysState) (s roomId userId targetUserId answer : String) :
    SysState × List Emit :=
  (st, [⟨.toRoom (videoChannel roomId), .videoAnswer userId answer⟩])

/-- The ice-candidate relay handler, same shape as video-offer. -/
def iceCandidateRelay (st : SysState) (s roomId userId targetUserId candidate : String) :
    SysState × List Emit :=
  (st, [⟨.toRoom (videoChannel roomId), .iceCandidate userId candidate⟩])

/-- The socket events the presence claims quantify over. -/
inductive Event where
  | identify (s u : String)
  | joinRoom (s r : String)
  | leaveRoom (s r : String)
  | disconnect (s : String)
  | memberCreate (r u : String)
deriving DecidableEq, Repr

/-- One handler dispatch. -/
def step (st : SysState) : Event → SysState
  | .identify s u => (identify st s u).1
  | .joinRoom s r => (joinRoom st s r).1
  | .leaveRoom s r => (leaveRoom st s r).1
  | .disconnect s => (disconnect st s).1
  | .memberCreate r u => memberCreate st r u

/-- Run a finite sequence of events. -/
def run (st : SysState) : List Event → SysState
  | [] => st
  | e :: es => run (step st e) es

/-- Decidable form of the presence-subset-of-roster invariant. -/
def presenceOk (st : SysState) : Bool :=
  st.onlineUsers.all (fun p => p.2.all (fun u => decide (u ∈ rosterOf st p.1)))

/-- An event respects the roster when any join-room it performs is for an
identity already in the target room's durable roster. -/
def stepOk (st : SysState) : Event → Bool
  | .joinRoom s r =>
    match getIdentity st s with
    | some u => decide (u ∈ rosterOf st r)
    | none => true
  | _ => true

/-- Every event of the trace respects the roster at its own step. -/
def traceOk (st : SysState) : List Event → Bool
  | [] => true
  | e :: es => stepOk st e && traceOk (step st e) es

/-- Room-scoped user_offline emissions for a user in an emission list. -/
def countRoomOffline (ems : List Emit) (r u : String) : Nat :=
  (ems.filter (fun e => decide (e = ⟨.toRoom r, .userOffline u⟩))).length

/-- True when no emission of the list is addressed to a room. -/
def noRoomScoped (ems : List Emit) : Bool :=
  ems.all (fun e =>
    match e.scope with
    | .toRoom _ => false
    | .toRoomExcept _ _ => false
    | _ => true)

/-- Client-side state of one RTCPeerConnection in the peers map of
video-chat.tsx: its remote and local descriptions and the ICE candidates
added so far. -/
structure PeerLink where
  remoteDesc : Option String
  localDesc : Option String
  candidates : List String
deriving DecidableEq, Repr

/-- Observable client actions of the video-chat handlers. -/
inductive ClientAction where
  | emitAnswer (roomId userId targetUserId answer : String)
  | setError (message : String)
deriving DecidableEq, Repr

/-- Client-side state of the video-chat component that the signaling
handlers touch. -/
structure ClientState where
  peers : List (String × PeerLink)
deriving DecidableEq, Repr

/-- The client's ice-candidate listener: look the sender up in the peers
map; when a connection exists, addIceCandidate on it; otherwise nothing
happens (no state change, no error). -/
def handleIceCandidate (cs : ClientState) (peerId candidate : String) :
    ClientState × List ClientAction :=
  match lookup peerId cs.peers with
  | some pc =>
    let pc₁ := { pc with candidates := pc.candidates ++ [candidate] }
    ({ cs with peers := insertA peerId pc₁ cs.peers }, [])
  | none => (cs, [])

/-- The client's video-offer listener: unconditionally create a peer
connection for the sender, set the remote description, create and set
the local answer, and emit video-answer targeted back at the sender.
The received payload has no target field, and no filtering occurs.
answer stands for the awaited createAnswer result. -/
def handleVideoOffer (cs : ClientState) (roomId userId peerId offer answer : String) :
    ClientState × List ClientAction :=
  ({ cs with peers := insertA peerId ⟨some offer, some answer, []⟩ cs.peers },
   [.emitAnswer roomId userId peerId answer])

/-- Media capabilities as returned by checkMediaDevices: audio is probed
first (failure propagates), then video (failure degrades). -/
structure MediaCaps where
  video : Bool
  audio : Bool
deriving DecidableEq, Repr

/-- checkMediaDevices in video-chat.tsx, with micOk and camOk standing
for the success of the two getUserMedia probes: none models the thrown
audio error. -/
def checkMediaDevices (micOk camOk : Bool) : Option MediaCaps :=
  if micOk then some ⟨camOk, true⟩ else none

/-- Result of a successful initializeMediaStream: the isAudioOnly state
set on the component and the join-video-chat payload emitted. -/
structure MediaInitResult where
  isAudioOnly : Bool
  joinPayload : JoinVideoPayload
deriving DecidableEq, Repr

/-- initializeMediaStream in video-chat.tsx: probe devices, record
audio-only mode as the negation of video availability, and emit
join-video-chat carrying isAudioOnly.  none models the error path
(setError, no join emitted).  The second getUserMedia is assumed to
succeed when the probe did. -/
def initializeMediaStream (micOk camOk : Bool) (roomId userId : String) :
    Option MediaInitResult :=
  match checkMediaDevices micOk camOk with
  | some devices => some ⟨!devices.video, ⟨roomId, userId, !devices.video⟩⟩
  | none => none

/-- How the component renders a remote participant's tile: a video
element when the received stream has video tracks, the audio-only
placeholder otherwise. -/
inductive RemoteTile where
  | videoElement
  | audioPlaceholder
deriving DecidableEq, Repr

/-- A media track kind of a received stream. -/
inductive TrackKind where
  | video
  | audio
deriving DecidableEq, Repr

/-- stream.getVideoTracks().length > 0 decides the tile. -/
def remoteTile (tracks : List TrackKind) : RemoteTile :=
  if (tracks.filter (fun t => t = TrackKind.video)).length > 0 then .videoElement
  else .audioPlaceholder

/-! Helper lemmas about the association-list and set operations. -/

theorem lookup_insertA_self (k : String) (v : α) (l : List (String × α)) :
    lookup k (insertA k v l) = some v := by
  induction l with
  | nil => simp [insertA, lookup]
  | cons p rest ih =>
    by_cases h : p.1 = k
    · simp [insertA, h, lookup]
    · simpa [insertA, h, lookup] using ih

theorem lookup_insertA_ne (k k₁ : String) (v : α) (l : List (String × α))
    (h : k₁ ≠ k) : lookup k (insertA k₁ v l) = lookup k l := by
  induction l with
  | nil => simp [insertA, lookup, h]
  | cons p rest ih =>
    by_cases h₁ : p.1 = k₁
    · have h₂ : p.1 ≠ k := fun hk => h (h₁.symm.trans hk)
      simp [insertA, h₁, lookup, h, h₂]
    · by_cases h₂ : p.1 = k
      · simp [insertA, h₁, lookup, h₂, Ne.symm h]
      · simpa [insertA, h₁, lookup, h₂] using ih

theorem lookup_mem {k : String} {v : α} {l : List (String × α)}
    (h : lookup k l = some v) : (k, v) ∈ l := by
  induction l with
  | nil => simp [lookup] at h
  | cons p rest ih =>
    obtain ⟨a, b⟩ := p
    by_cases h₁ : a = k
    · simp only [lookup, if_pos h₁] at h
      injection h with h₂
      subst h₁
      subst h₂
      exact List.mem_cons_self _ _
    · simp only [lookup, if_neg h₁] at h
      exact List.mem_cons_of_mem _ (ih h)

theorem lookup_eq_none_of_not_mem {k : String} {l : List (String × α)}
    (h : k ∉ l.map Prod.fst) : lookup k l = none := by
  induction l with
  | nil => rfl
  | cons p rest ih =>
    simp only [List.map_cons, List.mem_cons] at h
    push_neg at h
    simp only [lookup, if_neg (Ne.symm h.1)]
    exact ih h.2

theorem mem_insertA {k : String} {v : α} {p : String × α} {l : List (String × α)}
    (h : p ∈ insertA k v l) : p = (k, v) ∨ p ∈ l := by
  induction l with
  | nil => simpa [insertA] using h
  | cons q rest ih =>
    by_cases h₁ : q.1 = k
    · simp only [insertA, if_pos h₁, List.mem_cons] at h
      rcases h with h | h
      · exact Or.inl h
      · exact Or.inr (List.mem_cons_of_mem _ h)
    · simp only [insertA, if_neg h₁, List.mem_cons] at h
      rcases h with h | h
      · exact Or.inr (h ▸ List.mem_cons_self _ _)
      · rcases ih h with h₂ | h₂
        · exact Or.inl h₂
        · exact Or.inr (List.mem_cons_of_mem _ h₂)

theorem insertA_absorb (k : String) (v v₁ : α) (l : List (String × α)) :
    insertA k v (insertA k v₁ l) = insertA k v l := by
  induction l with
  | nil => simp [insertA]
  | cons p rest ih =>
    by_cases h : p.1 = k
    · simp [insertA, h]
    · simp [insertA, h, ih]

theorem mem_eraseA {k : String} {p : String × α} {l : List (String × α)}
    (h : p ∈ eraseA k l) : p ∈ l :=
  List.mem_of_mem_filter h

theorem mem_setAdd {x y : String} {s : List String} (h : x ∈ setAdd y s) :
    x = y ∨ x ∈ s := by
  by_cases h₁ : y ∈ s
  · exact Or.inr (by simpa [setAdd, h₁] using h)
  · simp only [setAdd, if_neg h₁, List.mem_append, List.mem_singleton] at h
    exact h.symm

theorem mem_setAdd_of_mem {x : String} (y : String) {s : List String}
    (h : x ∈ s) : x ∈ setAdd y s := by
  by_cases h₁ : y ∈ s
  · simp only [setAdd, if_pos h₁]
    exact h
  · simp only [setAdd, if_neg h₁, List.mem_append]
    exact Or.inl h

theorem self_mem_setAdd (x : String) (s : List String) : x ∈ setAdd x s := by
  by_cases h : x ∈ s
  · simp only [setAdd, if_pos h]
    exact h
  · simp [setAdd, if_neg h]

theorem setAdd_idem (x : String) (s : List String) :
    setAdd x (setAdd x s) = setAdd x s := by
  show (if x ∈ setAdd x s then setAdd x s else setAdd x s ++ [x]) = setAdd x s
  rw [if_pos (self_mem_setAdd x s)]

theorem mem_setDel {x y : String} {s : List String} (h : x ∈ setDel y s) :
    x ∈ s :=
  List.mem_of_mem_filter h

theorem not_mem_setDel_self (x : String) (s : List String) :
    x ∉ setDel x s := by
  intro h
  have := List.of_mem_filter h
  simp at this

/-! Lemmas about the per-room sweep of the disconnect handler. -/

theorem disconnectRooms_not_mem_result (u : String) (l : List (String × List String)) :
    ∀ p ∈ (disconnectRooms u l).1, u ∉ p.2 := by
  induction l with
  | nil =>
    intro p hp
    simp [disconnectRooms] at hp
  | cons q rest ih =>
    obtain ⟨r, us⟩ := q
    intro p hp
    by_cases hq : u ∈ us
    · by_cases he : setDel u us = []
      · simp only [disconnectRooms, if_pos hq, if_pos he] at hp
        exact ih p hp
      · simp only [disconnectRooms, if_pos hq, if_neg he, List.mem_cons] at hp
        rcases hp with hp | hp
        · subst hp
          exact not_mem_setDel_self u us
        · exact ih p hp
    · simp only [disconnectRooms, if_neg hq, List.mem_cons] at hp
      rcases hp with hp | hp
      · subst hp
        exact hq
      · exact ih p hp

theorem disconnectRooms_result_sub (u : String) (l : List (String × List String)) :
    ∀ p ∈ (disconnectRooms u l).1, ∃ us, (p.1, us) ∈ l ∧ ∀ x ∈ p.2, x ∈ us := by
  induction l with
  | nil =>
    intro p hp
    simp [disconnectRooms] at hp
  | cons q rest ih =>
    obtain ⟨r, us⟩ := q
    intro p hp
    by_cases hq : u ∈ us
    · by_cases he : setDel u us = []
      · simp only [disconnectRooms, if_pos hq, if_pos he] at hp
        obtain ⟨us₁, hmem, hsub⟩ := ih p hp
        exact ⟨us₁, List.mem_cons_of_mem _ hmem, hsub⟩
      · simp only [disconnectRooms, if_pos hq, if_neg he, List.mem_cons] at hp
        rcases hp with hp | hp
        · subst hp
          exact ⟨us, List.mem_cons_self _ _, fun x hx => mem_setDel hx⟩
        · obtain ⟨us₁, hmem, hsub⟩ := ih p hp
          exact ⟨us₁, List.mem_cons_of_mem _ hmem, hsub⟩
    · simp only [disconnectRooms, if_neg hq, List.mem_cons] at hp
      rcases hp with hp | hp
      · subst hp
        exact ⟨us, List.mem_cons_self _ _, fun x hx => hx⟩
      · obtain ⟨us₁, hmem, hsub⟩ := ih p hp
        exact ⟨us₁, List.mem_cons_of_mem _ hmem, hsub⟩

theorem disconnectRooms_of_absent (u : String) (l : List (String × List String))
    (h : ∀ p ∈ l, u ∉ p.2) : disconnectRooms u l = (l, []) := by
  induction l with
  | nil => rfl
  | cons q rest ih =>
    obtain ⟨r, us⟩ := q
    have hq : u ∉ us := h (r, us) (List.mem_cons_self _ _)
    have hrest : disconnectRooms u rest = (rest, []) :=
      ih (fun p hp => h p (List.mem_cons_of_mem _ hp))
    simp [disconnectRooms, hq, hrest]

theorem countRoomOffline_nil (r u : String) : countRoomOffline [] r u = 0 := rfl

theorem countRoomOffline_cons (e : Emit) (ems : List Emit) (r u : String) :
    countRoomOffline (e :: ems) r u =
      (if e = ⟨.toRoom r, .userOffline u⟩ then 1 else 0) + countRoomOffline ems r u := by
  by_cases h : e = ⟨.toRoom r, .userOffline u⟩
  · simp [countRoomOffline, List.filter, h, Nat.add_comm]
  · simp [countRoomOffline, List.filter, h]

theorem countRoomOffline_append (ems₁ ems₂ : List Emit) (r u : String) :
    countRoomOffline (ems₁ ++ ems₂) r u =
      countRoomOffline ems₁ r u + countRoomOffline ems₂ r u := by
  simp [countRoomOffline, List.filter_append]

theorem disconnectRooms_count_zero (u r : String) (l : List (String × List String))
    (h : r ∉ l.map Prod.fst) : countRoomOffline (disconnectRooms u l).2 r u = 0 := by
  induction l with
  | nil => rfl
  | cons q rest ih =>
    obtain ⟨r₁, us⟩ := q
    simp only [List.map_cons, List.mem_cons] at h
    push_neg at h
    have hz := ih h.2
    by_cases hq : u ∈ us
    · have hne : (⟨.toRoom r₁, .userOffline u⟩ : Emit) ≠ ⟨.toRoom r, .userOffline u⟩ := by
        intro hcontra
        apply h.1
        cases hcontra
        rfl
      simp [disconnectRooms, hq, countRoomOffline_cons, hne, hz]
    · simp [disconnectRooms, hq, hz]

theorem disconnectRooms_count (u r : String) (l : List (String × List String))
    (hnd : (l.map Prod.fst).Nodup) :
    countRoomOffline (disconnectRooms u l).2 r u =
      if u ∈ (lookup r l).getD [] then 1 else 0 := by
  induction l with
  | nil => simp [disconnectRooms, lookup, countRoomOffline_nil]
  | cons q rest ih =>
    obtain ⟨r₁, us⟩ := q
    simp only [List.map_cons, List.nodup_cons] at hnd
    by_cases hr : r₁ = r
    · subst hr
      have hz : countRoomOffline (disconnectRooms u rest).2 r₁ u = 0 :=
        disconnectRooms_count_zero u r₁ rest hnd.1
      by_cases hq : u ∈ us
      · simp [disconnectRooms, hq, lookup, countRoomOffline_cons, hz]
      · simp [disconnectRooms, hq, lookup, hz]
    · have hih := ih hnd.2
      by_cases hq : u ∈ us
      · have hne : (⟨.toRoom r₁, .userOffline u⟩ : Emit) ≠ ⟨.toRoom r, .userOffline u⟩ := by
          intro hcontra
          apply hr
          cases hcontra
          rfl
        simp [disconnectRooms, hq, lookup, hr, countRoomOffline_cons, hne, hih]
      · simp [disconnectRooms, hq, lookup, hr, hih]

/-! The presence-subset-of-roster invariant and its preservation. -/

theorem presenceOk_iff (st : SysState) :
    presenceOk st = true ↔
      ∀ p ∈ st.onlineUsers, ∀ u ∈ p.2, u ∈ rosterOf st p.1 := by
  simp [presenceOk, List.all_eq_true]

theorem rosterOf_memberCreate_mono (st : SysState) (r u r₁ x : String)
    (h : x ∈ rosterOf st r₁) : x ∈ rosterOf (memberCreate st r u) r₁ := by
  by_cases hr : r = r₁
  · subst hr
    simp only [memberCreate, rosterOf] at h ⊢
    rw [lookup_insertA_self]
    simp only [Option.getD_some]
    exact mem_setAdd_of_mem u h
  · simp only [memberCreate, rosterOf] at h ⊢
    rw [lookup_insertA_ne _ _ _ _ hr]
    exact h

theorem presenceOk_preserved (st : SysState) (e : Event)
    (hok : presenceOk st = true) (hs : stepOk st e = true) :
    presenceOk (step st e) = true := by
  cases e with
  | identify s u =>
    simpa [step, identify, presenceOk, rosterOf] using hok
  | joinRoom s r =>
    cases hid : getIdentity st s with
    | none => simpa [step, joinRoom, hid] using hok
    | some u =>
      simp only [stepOk, hid, decide_eq_true_eq] at hs
      rw [presenceOk_iff] at hok
      simp only [step, joinRoom, hid]
      rw [presenceOk_iff]
      intro p hp x hx
      rcases mem_insertA hp with hnew | hold
      · subst hnew
        simp only at hx
        rcases mem_setAdd hx with hxu | hxp
        · subst hxu
          exact hs
        · simp only [presenceOf] at hxp
          cases hlk : lookup r st.onlineUsers with
          | none => rw [hlk] at hxp; simp at hxp
          | some us =>
            rw [hlk] at hxp
            simp only [Option.getD_some] at hxp
            exact hok (r, us) (lookup_mem hlk) x hxp
      · exact hok p hold x hx
  | leaveRoom s r =>
    cases hid : getIdentity st s with
    | none => simpa [step, leaveRoom, hid] using hok
    | some u =>
      rw [presenceOk_iff] at hok
      simp only [step, leaveRoom, hid]
      rw [presenceOk_iff]
      intro p hp x hx
      simp only at hp
      cases hlk : lookup r st.onlineUsers with
      | none =>
        rw [hlk] at hp
        exact hok p hp x hx
      | some pres =>
        rw [hlk] at hp
        by_cases he : setDel u pres = []
        · simp only [if_pos he] at hp
          exact hok p (mem_eraseA hp) x hx
        · simp only [if_neg he] at hp
          rcases mem_insertA hp with hnew | hold
          · subst hnew
            simp only at hx
            exact hok (r, pres) (lookup_mem hlk) x (mem_setDel hx)
          · exact hok p hold x hx
  | disconnect s =>
    cases hid : getIdentity st s with
    | none => simpa [step, disconnect, hid, presenceOk, rosterOf] using hok
    | some u =>
      rw [presenceOk_iff] at hok
      simp only [step, disconnect, hid]
      rw [presenceOk_iff]
      intro p hp x hx
      obtain ⟨us, hmem, hsub⟩ := disconnectRooms_result_sub u st.onlineUsers p hp
      exact hok (p.1, us) hmem x (hsub x hx)
  | memberCreate r u =>
    rw [presenceOk_iff] at hok
    rw [presenceOk_iff]
    intro p hp x hx
    have hp₁ : p ∈ st.onlineUsers := hp
    exact rosterOf_memberCreate_mono st r u p.1 x (hok p hp₁ x hx)

theorem presenceOk_run (st : SysState) (evs : List Event)
    (hok : presenceOk st = true) (htr : traceOk st evs = true) :
    presenceOk (run st evs) = true := by
  induction evs generalizing st with
  | nil => simpa [run] using hok
  | cons e es ih =>
    simp only [traceOk, Bool.and_eq_true] at htr
    exact ih (step st e) (presenceOk_preserved st e hok htr.1) htr.2

theorem disconnect_presence_absent (st : SysState) (s u : String)
    (h : getIdentity st s = some u) (r : String) :
    u ∉ presenceOf (disconnect st s).1 r := by
  intro hmem
  simp only [disconnect, h, presenceOf] at hmem
  cases hlk : lookup r (disconnectRooms u st.onlineUsers).1 with
  | none =>
    rw [hlk] at hmem
    simp at hmem
  | some us =>
    rw [hlk] at hmem
    simp only [Option.getD_some] at hmem
    exact disconnectRooms_not_mem_result u st.onlineUsers (r, us) (lookup_mem hlk) hmem

theorem countRoomOffline_broadcast (u₁ r u : String) :
    countRoomOffline [⟨.broadcast, .userOffline u₁⟩] r u = 0 := by
  simp [countRoomOffline, List.filter]

theorem disconnect_count (st : SysState) (s u : String)
    (hid : getIdentity st s = some u)
    (hnd : (st.onlineUsers.map Prod.fst).Nodup) (r : String) :
    countRoomOffline (disconnect st s).2 r u =
      if u ∈ presenceOf st r then 1 else 0 := by
  simp only [disconnect, hid]
  rw [countRoomOffline_append, countRoomOffline_broadcast,
    disconnectRooms_count u r st.onlineUsers hnd]
  simp [presenceOf]

/-! Theorems settling the claims. -/

/-- Claim C1 (amended): the live presence set stays a subset of the durable
roster along any finite sequence of identify, join-room, leave-room,
disconnect and roster-create events, provided every join-room performed
for an identified connection targets a room whose durable roster already
contains that identity.  Without that proviso the code admits violations
(see the counterexample): the join-room handler never consults the
roster. -/
theorem presence_subset_roster_of_roster_joins (st : SysState) (evs : List Event)
    (hok : presenceOk st = true) (htr : traceOk st evs = true) :
    presenceOk (run st evs) = true :=
  presenceOk_run st evs hok htr

theorem presence_subset_roster_of_roster_joins_witness :
    presenceOk (memberCreate initState "r1" "u1") = true ∧
    traceOk (memberCreate initState "r1" "u1")
      [.identify "s1" "u1", .joinRoom "s1" "r1", .leaveRoom "s1" "r1",
       .disconnect "s1"] = true ∧
    presenceOk (run (memberCreate initState "r1" "u1")
      [.identify "s1" "u1", .joinRoom "s1" "r1", .leaveRoom "s1" "r1",
       .disconnect "s1"]) = true :=
  ⟨by decide, by decide,
   presence_subset_roster_of_roster_joins _ _ (by decide) (by decide)⟩

/-- Claim C1 as stated is false on the code: starting from the empty state,
identify followed by join-room puts the user into the room's live presence
set while the durable roster of that room stays empty, because the
join-room handler adds to onlineUsers without any roster check. -/
theorem presence_not_subset_roster_cex :
    "u1" ∈ presenceOf (run initState [.identify "s1" "u1", .joinRoom "s1" "r1"]) "r1" ∧
    "u1" ∉ rosterOf (run initState [.identify "s1" "u1", .joinRoom "s1" "r1"]) "r1" := by
  decide

/-- Claim C2 (amended): presence is keyed by identity, not by connection.
Disconnecting any connection bound to identity u removes u from every
room's presence set, even when another connection bound to u still has
an active join for the room. -/
theorem disconnect_removes_identity_from_all_presence (st : SysState) (s u : String)
    (hid : getIdentity st s = some u) (r : String) :
    u ∉ presenceOf (disconnect st s).1 r :=
  disconnect_presence_absent st s u hid r

theorem disconnect_removes_identity_from_all_presence_witness :
    getIdentity ⟨[("s1", "u1"), ("s2", "u1")], [("r1", ["u1"])],
      [("s1", ["r1"]), ("s2", ["r1"])], []⟩ "s1" = some "u1" ∧
    "u1" ∉ presenceOf (disconnect ⟨[("s1", "u1"), ("s2", "u1")], [("r1", ["u1"])],
      [("s1", ["r1"]), ("s2", ["r1"])], []⟩ "s1").1 "r1" :=
  ⟨by decide,
   disconnect_removes_identity_from_all_presence _ "s1" "u1" (by decide) "r1"⟩

/-- Claim C2 as stated is false on the code: with two connections s1 and s2
both identified as u1 and both joined to room r1, disconnecting s1 alone
leaves s2 with an active join for r1 (and still bound to u1), yet u1 is
gone from r1's presence set, because the disconnect handler removes the
identity from every room without counting connections. -/
theorem presence_connection_iff_cex :
    getIdentity (run initState [.identify "s1" "u1", .identify "s2" "u1",
      .joinRoom "s1" "r1", .joinRoom "s2" "r1", .disconnect "s1"]) "s2" = some "u1" ∧
    "r1" ∈ socketRoomsOf (run initState [.identify "s1" "u1", .identify "s2" "u1",
      .joinRoom "s1" "r1", .joinRoom "s2" "r1", .disconnect "s1"]) "s2" ∧
    "u1" ∉ presenceOf (run initState [.identify "s1" "u1", .identify "s2" "u1",
      .joinRoom "s1" "r1", .joinRoom "s2" "r1", .disconnect "s1"]) "r1" := by
  decide

/-- Claim C5: disconnecting a connection bound to identity u removes u
from every room whose presence set contains it; the teardown emits
exactly one room-scoped offline notification to each room whose presence
set contained u and none to any other room; and when u was in no room's
presence set the presence map is untouched and no room-scoped emission
occurs at all. -/
theorem disconnect_offline_notifications (st : SysState) (s u : String)
    (hid : getIdentity st s = some u)
    (hnd : (st.onlineUsers.map Prod.fst).Nodup) :
    (∀ r, u ∈ presenceOf st r → countRoomOffline (disconnect st s).2 r u = 1) ∧
    (∀ r, u ∉ presenceOf st r → countRoomOffline (disconnect st s).2 r u = 0) ∧
    (∀ r, u ∉ presenceOf (disconnect st s).1 r) ∧
    ((∀ p ∈ st.onlineUsers, u ∉ p.2) →
      (disconnect st s).1.onlineUsers = st.onlineUsers ∧
      noRoomScoped (disconnect st s).2 = true) := by
  refine ⟨?_, ?_, ?_, ?_⟩
  · intro r hr
    rw [disconnect_count st s u hid hnd r, if_pos hr]
  · intro r hr
    rw [disconnect_count st s u hid hnd r, if_neg hr]
  · exact disconnect_presence_absent st s u hid
  · intro habs
    have hdr := disconnectRooms_of_absent u st.onlineUsers habs
    constructor
    · simp [disconnect, hid, hdr]
    · simp [disconnect, hid, hdr, noRoomScoped]

theorem disconnect_offline_notifications_witness :
    getIdentity ⟨[("s1", "u1")], [("rA", ["u1"]), ("rB", ["u1", "u2"])],
      [("s1", ["rA", "rB"])], []⟩ "s1" = some "u1" ∧
    (([("rA", ["u1"]), ("rB", ["u1", "u2"])] :
        List (String × List String)).map Prod.fst).Nodup ∧
    countRoomOffline (disconnect ⟨[("s1", "u1")],
      [("rA", ["u1"]), ("rB", ["u1", "u2"])], [("s1", ["rA", "rB"])], []⟩ "s1").2
      "rA" "u1" = 1 :=
  ⟨by decide, by decide,
   (disconnect_offline_notifications ⟨[("s1", "u1")],
      [("rA", ["u1"]), ("rB", ["u1", "u2"])], [("s1", ["rA", "rB"])], []⟩
      "s1" "u1" (by decide) (by decide)).1 "rA" (by decide)⟩

/-- Claim C3: send-message persists first; on success the persisted record
is broadcast unchanged to exactly the connections currently joined to the
room (the sender's own connection included when it is joined, no other
room's connections); on persistence failure the state is unchanged, the
only emission is an error event, that emission is no new-message
broadcast, and it is delivered exactly to the submitting connection. -/
theorem sendMessage_persist_then_broadcast (st : SysState) (s : String)
    (data : MessageData) (rec : MessageRecord) :
    (sendMessage st s data (some rec) =
      (st, [⟨.toRoom data.roomId, .newMessage rec⟩]) ∧
     (∀ sock, receives st ⟨.toRoom data.roomId, .newMessage rec⟩ sock = true ↔
        data.roomId ∈ socketRoomsOf st sock) ∧
     (data.roomId ∈ socketRoomsOf st s →
        receives st ⟨.toRoom data.roomId, .newMessage rec⟩ s = true)) ∧
    (sendMessage st s data none =
      (st, [⟨.toSocket s, .errorMsg "Failed to save message"⟩]) ∧
     (∀ e ∈ (sendMessage st s data none).2, ∀ r₁ m, e ≠ ⟨.toRoom r₁, .newMessage m⟩) ∧
     (∀ sock, receives st ⟨.toSocket s, .errorMsg "Failed to save message"⟩ sock = true ↔
        sock = s)) := by
  refine ⟨⟨rfl, ?_, ?_⟩, rfl, ?_, ?_⟩
  · intro sock
    simp [receives]
  · intro h
    simp [receives, h]
  · intro e he r₁ m
    simp only [sendMessage, List.mem_singleton] at he
    subst he
    simp
  · intro sock
    simp [receives]

theorem sendMessage_persist_then_broadcast_witness :
    "r1" ∈ socketRoomsOf ⟨[("s1", "u1")], [("r1", ["u1"])],
      [("s1", ["r1"]), ("s2", ["r1"]), ("s3", ["rX"])], []⟩ "s1" ∧
    receives ⟨[("s1", "u1")], [("r1", ["u1"])],
      [("s1", ["r1"]), ("s2", ["r1"]), ("s3", ["rX"])], []⟩
      ⟨.toRoom (MessageData.mk "r1" "hi" "u1" "text" none).roomId,
       .newMessage ⟨"m1", "hi", "text", none, "r1", "u1", 7, some "A", none⟩⟩
      "s1" = true :=
  ⟨by decide,
   ((sendMessage_persist_then_broadcast ⟨[("s1", "u1")], [("r1", ["u1"])],
      [("s1", ["r1"]), ("s2", ["r1"]), ("s3", ["rX"])], []⟩ "s1"
      (MessageData.mk "r1" "hi" "u1" "text" none)
      ⟨"m1", "hi", "text", none, "r1", "u1", 7, some "A", none⟩).1.2.2 (by decide))⟩

/-- Claim C7 as stated is false on the code: the send-message handler has
no identity guard.  On a connection that never identified, submitting a
message still triggers persistence and a room-wide new-message broadcast,
so the operation is not silently ignored. -/
theorem send_message_unidentified_cex :
    getIdentity initState "s1" = none ∧
    (sendMessage initState "s1" ⟨"r1", "hi", "u1", "text", none⟩
      (some ⟨"m1", "hi", "text", none, "r1", "u1", 7, none, none⟩)).2 =
      [⟨.toRoom "r1", .newMessage ⟨"m1", "hi", "text", none, "r1", "u1", 7, none, none⟩⟩] := by
  decide

/-- Claim C7 (amended): join-room and leave-room received on a connection
with no bound identity are silently ignored (state unchanged, no
emission); send-message, however, carries no identity guard at all: its
behaviour does not depend on the server state, hence not on whether the
connection ever identified, and it proceeds with the payload-supplied
identity. -/
theorem unidentified_room_ops (st : SysState) (s r : String)
    (h : getIdentity st s = none) :
    joinRoom st s r = (st, []) ∧ leaveRoom st s r = (st, []) ∧
    (∀ st₁ : SysState, ∀ data pr, (sendMessage st₁ s data pr).1 = st₁ ∧
      (sendMessage st₁ s data pr).2 = (sendMessage st s data pr).2) := by
  refine ⟨by simp [joinRoom, h], by simp [leaveRoom, h], ?_⟩
  intro st₁ data pr
  cases pr <;> simp [sendMessage]

theorem unidentified_room_ops_witness :
    getIdentity initState "s1" = none ∧
    joinRoom initState "s1" "r1" = (initState, []) :=
  ⟨by decide, (unidentified_room_ops initState "s1" "r1" (by decide)).1⟩

theorem joinRoom_some (st : SysState) (s r u : String)
    (hid : getIdentity st s = some u) :
    (joinRoom st s r).1 =
      { st with
        onlineUsers := insertA r (setAdd u (presenceOf st r)) st.onlineUsers,
        socketRooms := insertA s (setAdd r (socketRoomsOf st s)) st.socketRooms } := by
  simp [joinRoom, hid, presenceOf, socketRoomsOf]

theorem getIdentity_joinRoom (st : SysState) (s r s₁ : String) :
    getIdentity (joinRoom st s r).1 s₁ = getIdentity st s₁ := by
  cases hid : getIdentity st s with
  | none => simp [joinRoom, hid]
  | some u =>
    rw [joinRoom_some st s r u hid]
    rfl

theorem joinRoom_idem_state (st : SysState) (s r : String) :
    (joinRoom (joinRoom st s r).1 s r).1 = (joinRoom st s r).1 := by
  cases hid : getIdentity st s with
  | none => simp [joinRoom, hid]
  | some u =>
    have hid₂ : getIdentity (joinRoom st s r).1 s = some u := by
      rw [getIdentity_joinRoom st s r s, hid]
    rw [joinRoom_some _ s r u hid₂, joinRoom_some st s r u hid]
    simp [presenceOf, socketRoomsOf, lookup_insertA_self, setAdd_idem, insertA_absorb]

/-- Claim C8: two consecutive join-room calls from the same connection for
the same room leave exactly the state one call leaves: the whole server
state, the room's presence set and its size are unchanged by the second
call. -/
theorem join_room_idempotent (st : SysState) (s r : String) :
    (joinRoom (joinRoom st s r).1 s r).1 = (joinRoom st s r).1 ∧
    presenceOf (joinRoom (joinRoom st s r).1 s r).1 r =
      presenceOf (joinRoom st s r).1 r ∧
    (presenceOf (joinRoom (joinRoom st s r).1 s r).1 r).length =
      (presenceOf (joinRoom st s r).1 r).length := by
  have h := joinRoom_idem_state st s r
  exact ⟨h, by rw [h], by rw [h]⟩

/-- Claim C4 as stated is false on the code: the relayed offer does not
carry the intended recipient.  At a concrete input the server forwards
the identical message whatever targetUserId was supplied, the forwarded
payload holds only the sender identity and the offer, and the client
video-offer listener processes the offer (creating a peer connection and
answering) rather than checking a target field and discarding. -/
theorem relay_target_not_forwarded_cex :
    videoOffer initState "s1" "r1" "u1" "t1" "offerA" =
      videoOffer initState "s1" "r1" "u1" "t2" "offerA" ∧
    (videoOffer initState "s1" "r1" "u1" "t1" "offerA").2 =
      [⟨.toRoom (videoChannel "r1"), .videoOffer "u1" "offerA"⟩] ∧
    (handleVideoOffer (ClientState.mk []) "r1" "me" "t2" "offerA" "ansA").1.peers =
      [("t2", ⟨some "offerA", some "ansA", []⟩)] := by
  decide

/-- Claim C4 (amended): the relayed offer, answer and ICE candidate are
broadcast to the room's whole call channel with a payload holding only
the sender identity and the signaling payload; the targetUserId supplied
by the sender is dropped by the server (the relay output is independent
of it), so receiving clients get no target field to check and the client
offer listener processes every incoming offer. -/
theorem relay_broadcast_without_target (st : SysState)
    (s r u t₁ t₂ pl : String) (cs : ClientState) (roomId userId peerId ans : String) :
    videoOffer st s r u t₁ pl = videoOffer st s r u t₂ pl ∧
    videoAnswer st s r u t₁ pl = videoAnswer st s r u t₂ pl ∧
    iceCandidateRelay st s r u t₁ pl = iceCandidateRelay st s r u t₂ pl ∧
    (videoOffer st s r u t₁ pl).2 =
      [⟨.toRoom (videoChannel r), .videoOffer u pl⟩] ∧
    (∀ sock, receives st ⟨.toRoom (videoChannel r), .videoOffer u pl⟩ sock = true ↔
      videoChannel r ∈ socketRoomsOf st sock) ∧
    lookup peerId (handleVideoOffer cs roomId userId peerId pl ans).1.peers =
      some ⟨some pl, some ans, []⟩ := by
  refine ⟨rfl, rfl, rfl, rfl, ?_, ?_⟩
  · intro sock
    simp [receives]
  · simp [handleVideoOffer, lookup_insertA_self]

/-- Claim C10: the server relays video-offer, video-answer and
ice-candidate to the whole call channel of the room — the sender's own
connection included whenever it is in the channel, so a client hears its
own messages echoed back — without touching state, and the forwarded
payload holds exactly the sender identity and the signaling payload: the
targetUserId field is not forwarded (the output is independent of it). -/
theorem signaling_relay_echo_broadcast (st : SysState) (s r u t pl : String) :
    (videoOffer st s r u t pl).1 = st ∧
    (videoOffer st s r u t pl).2 =
      [⟨.toRoom (videoChannel r), .videoOffer u pl⟩] ∧
    (videoAnswer st s r u t pl).2 =
      [⟨.toRoom (videoChannel r), .videoAnswer u pl⟩] ∧
    (iceCandidateRelay st s r u t pl).2 =
      [⟨.toRoom (videoChannel r), .iceCandidate u pl⟩] ∧
    (∀ t₁, videoOffer st s r u t pl = videoOffer st s r u t₁ pl ∧
      videoAnswer st s r u t pl = videoAnswer st s r u t₁ pl ∧
      iceCandidateRelay st s r u t pl = iceCandidateRelay st s r u t₁ pl) ∧
    (∀ sock, receives st ⟨.toRoom (videoChannel r), .videoOffer u pl⟩ sock = true ↔
      videoChannel r ∈ socketRoomsOf st sock) ∧
    (videoChannel r ∈ socketRoomsOf st s →
      receives st ⟨.toRoom (videoChannel r), .videoOffer u pl⟩ s = true) := by
  refine ⟨rfl, rfl, rfl, rfl, fun t₁ => ⟨rfl, rfl, rfl⟩, ?_, ?_⟩
  · intro sock
    simp [receives]
  · intro h
    simp [receives, h]

theorem signaling_relay_echo_broadcast_witness :
    videoChannel "r1" ∈ socketRoomsOf ⟨[], [], [("s1", ["video-r1"])], []⟩ "s1" ∧
    receives ⟨[], [], [("s1", ["video-r1"])], []⟩
      ⟨.toRoom (videoChannel "r1"), .videoOffer "u1" "offerA"⟩ "s1" = true :=
  ⟨by decide,
   (signaling_relay_echo_broadcast ⟨[], [], [("s1", ["video-r1"])], []⟩
      "s1" "r1" "u1" "t1" "offerA").2.2.2.2.2.2 (by decide)⟩

/-- Claim C6 as stated is false on the code: with the camera probe failing
and the microphone succeeding the client does enter audio-only mode and
does emit join-video-chat with isAudioOnly true, but the server's
join-video-chat handler destructures only roomId and userId, so the
notification remote participants receive is identical whether or not the
joining peer was audio-only: they are not told. -/
theorem audio_only_flag_dropped_cex :
    initializeMediaStream true false "r1" "u1" =
      some ⟨true, ⟨"r1", "u1", true⟩⟩ ∧
    joinVideoChat initState "s1" ⟨"r1", "u1", true⟩ =
      joinVideoChat initState "s1" ⟨"r1", "u1", false⟩ ∧
    (joinVideoChat initState "s1" ⟨"r1", "u1", true⟩).2 =
      [⟨.toRoomExcept (videoChannel "r1") "s1", .userJoinedVideo "u1"⟩] := by
  decide

/-- Claim C6 (amended): when camera acquisition fails but the microphone
succeeds, the client session enters audio-only mode and the
join-video-chat payload carries isAudioOnly true; the server however
drops the flag when notifying the other call participants (its output
only depends on roomId and userId), and remote UIs fall back to an
audio-only placeholder for a peer only by observing that the received
stream has no video tracks. -/
theorem audio_only_client_flag_server_drop (roomId userId : String)
    (st : SysState) (s : String) (p₁ p₂ : JoinVideoPayload)
    (hr : p₁.roomId = p₂.roomId) (hu : p₁.userId = p₂.userId) :
    initializeMediaStream true false roomId userId =
      some ⟨true, ⟨roomId, userId, true⟩⟩ ∧
    joinVideoChat st s p₁ = joinVideoChat st s p₂ ∧
    (∀ tracks : List TrackKind, remoteTile tracks = .audioPlaceholder ↔
      (tracks.filter (fun t => t = TrackKind.video)).length = 0) := by
  refine ⟨rfl, by simp [joinVideoChat, hr, hu], ?_⟩
  intro tracks
  unfold remoteTile
  by_cases h : (tracks.filter (fun t => t = TrackKind.video)).length > 0
  · rw [if_pos h]
    constructor
    · intro hcontra
      cases hcontra
    · intro h₀
      omega
  · rw [if_neg h]
    constructor
    · intro _
      omega
    · intro _
      rfl

theorem audio_only_client_flag_server_drop_witness :
    (JoinVideoPayload.mk "r1" "u1" true).roomId =
      (JoinVideoPayload.mk "r1" "u1" false).roomId ∧
    (JoinVideoPayload.mk "r1" "u1" true).userId =
      (JoinVideoPayload.mk "r1" "u1" false).userId ∧
    joinVideoChat initState "s1" (JoinVideoPayload.mk "r1" "u1" true) =
      joinVideoChat initState "s1" (JoinVideoPayload.mk "r1" "u1" false) :=
  ⟨by decide, by decide,
   (audio_only_client_flag_server_drop "r1" "u1" initState "s1"
      (JoinVideoPayload.mk "r1" "u1" true) (JoinVideoPayload.mk "r1" "u1" false)
      (by decide) (by decide)).2.1⟩

/-- Claim C9: when an ice-candidate event arrives at the client for a peer
identity with no entry in the peers map, the handler does nothing: the
client state is returned unchanged and no action (in particular no
error) is produced. -/
theorem ice_candidate_no_peer_dropped (cs : ClientState) (peerId candidate : String)
    (h : lookup peerId cs.peers = none) :
    handleIceCandidate cs peerId candidate = (cs, []) := by
  simp [handleIceCandidate, h]

theorem ice_candidate_no_peer_dropped_witness :
    lookup "peerX" (ClientState.mk [("peerY", ⟨some "o", some "a", []⟩)]).peers = none ∧
    handleIceCandidate (ClientState.mk [("peerY", ⟨some "o", some "a", []⟩)])
      "peerX" "cand1" = (ClientState.mk [("peerY", ⟨some "o", some "a", []⟩)], []) :=
  ⟨by decide,
   ice_candidate_no_peer_dropped (ClientState.mk [("peerY", ⟨some "o", some "a", []⟩)])
     "peerX" "cand1" (by decide)⟩

end OnlineTalk
